import Mathlib

/-!
Verification development for the MoniBot Telegram payment-dispatch engine
(`src/index.js`, `src/crossChainCheck.js`).

The JavaScript source is shallowly embedded: pure computations become Lean
functions, on-chain and database reads become explicit "world" parameters
(an `Option` result models a request that either returns a value or throws),
and the mutable in-process state (the per-chain RPC cursor, the giveaway
session counters) is threaded explicitly.  Token amounts in raw on-chain
units are `Nat` (`uint256` values; no operation here can underflow or reach
`2^256`, all are comparisons and reads), display amounts are `ℚ`
(JavaScript numbers; the claims under study never depend on float rounding).
-/

namespace MoniBot


/-- The three configured chains, in registry iteration order
(`Object.keys(CHAINS)` = base, bsc, tempo in `src/index.js` line 48 and
`CHAIN_CHECK_CONFIGS` in `src/crossChainCheck.js` line 12). -/
inductive ChainName
  | base
  | bsc
  | tempo
deriving DecidableEq, Repr

/-- Registry iteration order of the chain configuration objects. -/
def chainOrder : List ChainName := [ChainName.base, ChainName.bsc, ChainName.tempo]

/-! ## Endpoint failover (`rpcIndexes`, `rotateRpc`, `getClients`)

`src/index.js` lines 54, 62-71, 73-80.  The cursor for one chain is a `Nat`;
`rpcsLen` is `c.rpcs.length` for that chain.  `rotateRpc` embeds

    if ((rpcIndexes[chain] || 0) < c.rpcs.length - 1) {
      rpcIndexes[chain] = (rpcIndexes[chain] || 0) + 1;
    }

and `getClientsRpcIdx` embeds the index selection in `getClients`:

    const rpcIdx = Math.min(rpcIndexes[chain] || 0, c.rpcs.length - 1);
-/

/-- Embedding of `rotateRpc` for a single chain: advance the cursor by one
unless it is already at the last endpoint, in which case do nothing. -/
def rotateRpc (rpcsLen idx : Nat) : Nat :=
  if idx < rpcsLen - 1 then idx + 1 else idx

/-- Embedding of the endpoint-index selection in `getClients`:
`Math.min(cursor, rpcs.length - 1)`. -/
def getClientsRpcIdx (rpcsLen idx : Nat) : Nat :=
  min idx (rpcsLen - 1)

/-- The cursor after `n` failure reports, starting from the initial cursor 0
(`rpcIndexes` initializes every chain to 0).  `rotateRpc` is the only code
in the repository that writes `rpcIndexes`, so the process-lifetime history
of the cursor is exactly this iteration. -/
def cursorAfter (rpcsLen : Nat) : Nat → Nat
  | 0 => 0
  | n + 1 => rotateRpc rpcsLen (cursorAfter rpcsLen n)

/-! ## The settlement dispatcher `attemptP2POnChain`

`src/index.js` lines 564-598.  A dispatch attempt performs, in order:

1. three concurrent reads (`getNonce`, `balanceOf`, `allowance`);
2. the balance and allowance short-circuits
   (`if (balance < amountUnits) return { tag, ok: false, reason: 'Low balance' }`,
    then the same for `allowance` with `'Low allowance'`);
3. `encodeFunctionData` with the dedup tag string
   `tg_<msg.message_id>_<tag>` (a pure local computation);
4. `estimateContractGas` (a network read that can throw);
5. `await pub.waitForTransactionReceipt({ hash })` — `hash` is an
   **undefined identifier** in this function (the `wallet.sendTransaction`
   call that binds `hash` in the giveaway handler, line 645, has no
   counterpart here), so evaluating the shorthand object `{ hash }` throws
   `ReferenceError: hash is not defined`, which the `catch` at line 595
   converts to `{ tag, ok: false, reason: e.message.split(':')[0] }`.

Network effects are modelled by a world record: `none` for a read models the
call throwing, `some` models it returning.  The RPC cursor state is threaded
through unchanged because `getClients` only reads `rpcIndexes` and the sole
writer, `rotateRpc`, is never invoked on this path (or anywhere else). -/

/-- Mutable per-chain RPC cursor state (`rpcIndexes`, line 54). -/
structure RpcCursors where
  baseIdx : Nat
  bscIdx : Nat
  tempoIdx : Nat
deriving DecidableEq, Repr

/-- Observable operations of one dispatch attempt, in program order. -/
inductive P2POp
  | readNonce
  | readBalance
  | readAllowance
  | encodeCall (dedupTag : String)
  | estimateGas
  | sendTx
  | insertTx
deriving DecidableEq, Repr

/-- Outcomes the network can give to one dispatch attempt: the result of the
three preflight reads (`none` models a thrown transport error, with the
`e.message.split(':')[0]` reason it would surface), and the result of the
gas estimation. -/
structure P2PAttemptWorld where
  reads : Option (Nat × Nat × Nat)
  readErrReason : String
  gasEstimate : Option Nat
  gasErrReason : String
deriving DecidableEq, Repr

/-- The result object of `attemptP2POnChain`:
`{ tag, ok: true, hash, fee }` or `{ tag, ok: false, reason }`. -/
structure P2PResult where
  tag : String
  ok : Bool
  hash : Option String
  fee : Option ℚ
  reason : Option String
deriving DecidableEq, Repr

/-- The dedup tag string for a direct send, from line 577:
`tg_` + message id + `_` + recipient tag. -/
def p2pDedupTag (msgId : Nat) (tag : String) : String :=
  "tg_" ++ Nat.repr msgId ++ "_" ++ tag

/-- The three preflight reads issued by the `Promise.all` at lines 568-572. -/
def preflightReadOps : List P2POp :=
  [P2POp.readNonce, P2POp.readBalance, P2POp.readAllowance]

/-- Operations that prepare or perform a chain write (encoding the call,
estimating gas, submitting a transaction, recording the ledger row). -/
def isChainWritePrep : P2POp → Bool
  | P2POp.encodeCall _ => true
  | P2POp.estimateGas => true
  | P2POp.sendTx => true
  | P2POp.insertTx => true
  | _ => false

/-- Embedding of `attemptP2POnChain` (lines 564-598).  Returns the result
object, the trace of operations performed, and the RPC cursor state after
the call. -/
def attemptP2POnChain (msgId : Nat) (tag : String) (amountUnits : Nat)
    (w : P2PAttemptWorld) (cursors : RpcCursors) :
    P2PResult × List P2POp × RpcCursors :=
  match w.reads with
  | none =>
      ({ tag := tag, ok := false, hash := none, fee := none,
         reason := some w.readErrReason }, preflightReadOps, cursors)
  | some (_nonce, balance, allowance) =>
      if balance < amountUnits then
        ({ tag := tag, ok := false, hash := none, fee := none,
           reason := some "Low balance" }, preflightReadOps, cursors)
      else if allowance < amountUnits then
        ({ tag := tag, ok := false, hash := none, fee := none,
           reason := some "Low allowance" }, preflightReadOps, cursors)
      else
        match w.gasEstimate with
        | none =>
            ({ tag := tag, ok := false, hash := none, fee := none,
               reason := some w.gasErrReason },
             preflightReadOps ++ [P2POp.encodeCall (p2pDedupTag msgId tag), P2POp.estimateGas],
             cursors)
        | some _gas =>
            ({ tag := tag, ok := false, hash := none, fee := none,
               reason := some "hash is not defined" },
             preflightReadOps ++ [P2POp.encodeCall (p2pDedupTag msgId tag), P2POp.estimateGas],
             cursors)

/-! ## Cross-chain rerouting (`src/crossChainCheck.js`)

`CHAIN_CHECK_CONFIGS` (lines 12-37) fixes per chain the decimal precision,
display symbol, and the ordered RPC list (base: 2 endpoints, bsc: 2,
tempo: 1).  `checkChainFunds` (lines 39-72) tries the endpoints in order;
the first one whose two concurrent reads both return yields the numbers
(`parseFloat(formatUnits(...))`, modelled as the exact rational
`raw / 10 ^ decimals`); if every endpoint throws, the fallthrough return at
line 71 reports `hasBalance: false, hasAllowance: false`.
`findAlternateChain` (lines 81-104) probes every configured chain except
the current one and applies the two-stage selection policy.  The network is
a function giving, per chain and per endpoint position, either `none` (the
request threw) or the raw `(balance, allowance)` pair. -/

/-- Token decimals per chain in `CHAIN_CHECK_CONFIGS`. -/
def checkDecimals : ChainName → Nat
  | ChainName.base => 6
  | ChainName.bsc => 18
  | ChainName.tempo => 6

/-- Display symbol per chain in `CHAIN_CHECK_CONFIGS`. -/
def checkSymbol : ChainName → String
  | ChainName.base => "USDC"
  | ChainName.bsc => "USDT"
  | ChainName.tempo => "αUSD"

/-- Number of configured RPC endpoints per chain in `CHAIN_CHECK_CONFIGS`. -/
def checkRpcCount : ChainName → Nat
  | ChainName.base => 2
  | ChainName.bsc => 2
  | ChainName.tempo => 1

/-- The object returned by `checkChainFunds`. -/
structure FundsCheck where
  hasBalance : Bool
  hasAllowance : Bool
  balance : ℚ
  allowance : ℚ
  chain : ChainName
  symbol : String
deriving DecidableEq, Repr

/-- Embedding of `checkChainFunds`: try the chain's endpoints in order, use
the first successful read pair, fail closed if all endpoints throw. -/
def checkChainFunds (amount : ℚ) (w : ChainName → Nat → Option (Nat × Nat))
    (c : ChainName) : FundsCheck :=
  match (List.range (checkRpcCount c)).findSome? (w c) with
  | some (bal, allow) =>
      { hasBalance := decide (amount ≤ (bal : ℚ) / 10 ^ checkDecimals c),
        hasAllowance := decide (amount ≤ (allow : ℚ) / 10 ^ checkDecimals c),
        balance := (bal : ℚ) / 10 ^ checkDecimals c,
        allowance := (allow : ℚ) / 10 ^ checkDecimals c,
        chain := c, symbol := checkSymbol c }
  | none =>
      { hasBalance := false, hasAllowance := false, balance := 0, allowance := 0,
        chain := c, symbol := checkSymbol c }

/-- The object returned by `findAlternateChain`. -/
structure AltChain where
  chain : ChainName
  balance : ℚ
  symbol : String
  needsAllowance : Bool
deriving DecidableEq, Repr

/-- The first-stage selection predicate `c.hasBalance && c.hasAllowance`
(line 90). -/
def bothOkPred : FundsCheck → Bool :=
  fun fc => fc.hasBalance && fc.hasAllowance

/-- The second-stage selection predicate `c.hasBalance && !c.hasAllowance`
(line 96). -/
def balanceOnlyPred : FundsCheck → Bool :=
  fun fc => fc.hasBalance && !fc.hasAllowance

/-- The selection body of `findAlternateChain` over an explicit list of
alternate chains: map `checkChainFunds` over them, return the first check
satisfying both flags, else the first with balance only (tagged
`needsAllowance`), else `none`. -/
def selectAlternate (amount : ℚ) (w : ChainName → Nat → Option (Nat × Nat))
    (alternates : List ChainName) : Option AltChain :=
  match (alternates.map (checkChainFunds amount w)).find? bothOkPred with
  | some viable =>
      some { chain := viable.chain, balance := viable.balance,
             symbol := viable.symbol, needsAllowance := false }
  | none =>
      match (alternates.map (checkChainFunds amount w)).find? balanceOnlyPred with
      | some hasBalanceOnly =>
          some { chain := hasBalanceOnly.chain, balance := hasBalanceOnly.balance,
                 symbol := hasBalanceOnly.symbol, needsAllowance := true }
      | none => none

/-- Embedding of `findAlternateChain` (lines 81-104): probe every configured
chain except the current one, in registry iteration order. -/
def findAlternateChain (amount : ℚ) (w : ChainName → Nat → Option (Nat × Nat))
    (currentChain : ChainName) : Option AltChain :=
  selectAlternate amount w (chainOrder.filter (fun c => c ≠ currentChain))

/-- Concrete network for the C7 witness: every Bsc endpoint is unreachable,
Tempo returns 10 αUSD of balance and allowance (raw units, 6 decimals). -/
def claim7WitnessWorld : ChainName → Nat → Option (Nat × Nat) :=
  fun c _ => match c with
  | ChainName.base => some (0, 0)
  | ChainName.bsc => none
  | ChainName.tempo => some (10000000, 10000000)

/-! ## The per-recipient loop body of `executeP2PCommand`

`src/index.js` lines 478-508 (duplicated in the `/send` handler, lines
258-288).  For each recipient: one dispatch attempt on the active chain;
if it fails with `Low balance` or `Low allowance`, one cross-chain probe;
if the probe yields a chain without `needsAllowance`, exactly one retry
dispatch on it, whose result — success or failure — is pushed as the
recipient's final outcome; a `needsAllowance` probe result or a failed
probe pushes a failure without any retry. -/

/-- Uppercased chain name, as in `alt.chain.toUpperCase()`. -/
def chainUpper : ChainName → String
  | ChainName.base => "BASE"
  | ChainName.bsc => "BSC"
  | ChainName.tempo => "TEMPO"

/-- The recipient's final record, with the reroute marker
(`retryResult.rerouted` is set only when the retry succeeded) and
instrumentation counting the dispatch attempts and alternate-chain probes
the control flow made. -/
structure RecipientOutcome where
  result : P2PResult
  rerouted : Bool
  attemptCount : Nat
  probeCount : Nat
deriving DecidableEq, Repr

/-- Embedding of the per-recipient loop body of `executeP2PCommand`.  The
first attempt consults `w1`; the cross-chain probe consults `cw`; the
single retry consults `w2`. -/
def processRecipient (msgId : Nat) (tag : String) (amountUnits : Nat) (amount : ℚ)
    (chain : ChainName) (w1 : P2PAttemptWorld)
    (cw : ChainName → Nat → Option (Nat × Nat)) (w2 : P2PAttemptWorld)
    (cursors : RpcCursors) : RecipientOutcome :=
  let a1 := attemptP2POnChain msgId tag amountUnits w1 cursors
  if a1.1.ok then
    { result := a1.1, rerouted := false, attemptCount := 1, probeCount := 0 }
  else if a1.1.reason = some "Low balance" ∨ a1.1.reason = some "Low allowance" then
    match findAlternateChain amount cw chain with
    | some alt =>
        if alt.needsAllowance then
          { result :=
              { tag := tag, ok := false, hash := none, fee := none,
                reason := some ("Funds on " ++ chainUpper alt.chain ++ " but needs allowance") },
            rerouted := false, attemptCount := 1, probeCount := 1 }
        else
          { result := (attemptP2POnChain msgId tag amountUnits w2 a1.2.2).1,
            rerouted := (attemptP2POnChain msgId tag amountUnits w2 a1.2.2).1.ok,
            attemptCount := 2, probeCount := 1 }
    | none =>
        { result := a1.1, rerouted := false, attemptCount := 1, probeCount := 1 }
  else
    { result := a1.1, rerouted := false, attemptCount := 1, probeCount := 0 }

/-! ## The giveaway claim handler

`src/index.js` lines 304-376 (`/giveaway`; `handleGiveawayTg`, lines
602-675, is a verbatim copy).  Session state: `claimed` (a number),
`claimedUsers` (a `Set` of claimant ids), and whether the message listener
is still attached.  One claim event runs:

* synchronous gates — listener attached, `claimed >= maxPeople`,
  `claimedUsers.has(reply.from.id)`, the tag-syntax checks;
* `await getProfileByMonitag(...)` — a **suspension point** — then the
  recipient-validity checks (`!recipient || recipient.id === sender.id`);
* the provisional admission `claimedUsers.add(...); claimed++`;
* the settlement block: preflight reads, encode (the dedup tag string reads
  the **current** value of `claimed`), send, receipt.  Outcomes:
  `insufficient` closes the session keeping the increment; `reverted` and a
  thrown exception roll the admission back (`claimedUsers.delete`,
  `claimed--`) and keep the session open; success records the transfer and
  closes the session when `claimed >= maxPeople`.

The interleaved machine `gstep` gives each claim event a phase
(`check → admit → settle → done`); the two phase boundaries are the
suspension at the recipient lookup and the suspensions inside the
settlement block.  `processClaim` is the same handler run
start-to-finish without interleaving; `runSerial` folds it over a list of
claim events.  All rejection paths leave the state unchanged, so merging
the tag-syntax and recipient checks into one `valid` flag (tested at the
admit phase) is observationally faithful.  An `exception` models a throw at
the preflight reads, before any tag is encoded. -/

/-- How the settlement block of one claim ends. -/
inductive SettleOutcome
  | ok
  | insufficient
  | reverted
  | exception
deriving DecidableEq, Repr

/-- One candidate claim event: the claimant id (`reply.from.id`), whether
it passes the tag-syntax and recipient checks, and how its settlement
ends. -/
structure GEvent where
  user : Nat
  valid : Bool
  outcome : SettleOutcome
deriving DecidableEq, Repr

/-- The giveaway dedup tag from lines 348/351:
`tg_giveaway_` + message id + `_` + the value of `claimed` at encode time. -/
def giveawayTag (msgId : Nat) (claimed : Int) : String :=
  "tg_giveaway_" ++ Nat.repr msgId ++ "_" ++ toString claimed

/-- Giveaway session state.  `minted` records, most recent first, the value
of `claimed` embedded in each encoded dedup tag; `successes` the claimants
whose settlement succeeded. -/
structure SessState where
  claimed : Int
  claimedUsers : List Nat
  attached : Bool
  minted : List Int
  successes : List Nat
deriving DecidableEq, Repr

/-- Fresh session: `let claimed = 0; const claimedUsers = new Set()`. -/
def initSess : SessState :=
  { claimed := 0, claimedUsers := [], attached := true, minted := [], successes := [] }

/-- `claimedUsers.add(u)`: a no-op when the id is already present. -/
def insertUser (u : Nat) (l : List Nat) : List Nat :=
  if u ∈ l then l else u :: l

/-- The settlement block of the claim handler (lines 333-371), entered with
the provisional admission already applied; `s.claimed` here is the current
counter value the dedup tag encoding reads. -/
def settleStep (maxPeople : Int) (s : SessState) (e : GEvent) : SessState :=
  match e.outcome with
  | SettleOutcome.insufficient => { s with attached := false }
  | SettleOutcome.exception =>
      { s with claimedUsers := s.claimedUsers.erase e.user, claimed := s.claimed - 1 }
  | SettleOutcome.reverted =>
      { s with claimedUsers := s.claimedUsers.erase e.user,
               claimed := s.claimed - 1,
               minted := s.claimed :: s.minted }
  | SettleOutcome.ok =>
      let s2 := { s with minted := s.claimed :: s.minted,
                         successes := e.user :: s.successes }
      if maxPeople ≤ s2.claimed then { s2 with attached := false } else s2

/-- The whole claim handler run serially (no other claim interleaves). -/
def processClaim (maxPeople : Int) (s : SessState) (e : GEvent) : SessState :=
  if ¬ s.attached then s
  else if maxPeople ≤ s.claimed then s
  else if e.user ∈ s.claimedUsers then s
  else if ¬ e.valid then s
  else
    settleStep maxPeople
      { s with claimedUsers := insertUser e.user s.claimedUsers,
               claimed := s.claimed + 1 } e

/-- Serial processing of a list of claim events against a fresh session. -/
def runSerial (maxPeople : Int) (events : List GEvent) : SessState :=
  events.foldl (processClaim maxPeople) initSess

/-- Per-claim progress through the handler's suspension points. -/
inductive Phase
  | check
  | reserve
  | settle
  | done
deriving DecidableEq, Repr

/-- Machine state for interleaved claim processing: the shared session plus
each claim event's phase. -/
structure MState where
  sess : SessState
  phases : List Phase
deriving DecidableEq, Repr

/-- All claim events start at their synchronous gate checks. -/
def initM (events : List GEvent) : MState :=
  { sess := initSess, phases := events.map (fun _ => Phase.check) }

/-- One cooperative step of claim event `i`: run its next handler segment.
The `check` segment runs only while the listener is attached (a detached
listener no longer receives the message); the `admit` and `settle` segments
are resumptions of an already-running handler and proceed regardless. -/
def gstep (maxPeople : Int) (events : List GEvent) (m : MState) (i : Nat) : MState :=
  match m.phases.get? i, events.get? i with
  | some Phase.check, some e =>
      if ¬ m.sess.attached then m
      else if maxPeople ≤ m.sess.claimed then { m with phases := m.phases.set i Phase.done }
      else if e.user ∈ m.sess.claimedUsers then { m with phases := m.phases.set i Phase.done }
      else { m with phases := m.phases.set i Phase.reserve }
  | some Phase.reserve, some e =>
      if ¬ e.valid then { m with phases := m.phases.set i Phase.done }
      else
        { sess := { m.sess with claimedUsers := insertUser e.user m.sess.claimedUsers,
                                claimed := m.sess.claimed + 1 },
          phases := m.phases.set i Phase.settle }
  | some Phase.settle, some e =>
      { sess := settleStep maxPeople m.sess e, phases := m.phases.set i Phase.done }
  | _, _ => m

/-- Run the interleaved machine under a schedule of event indices. -/
def runSched (maxPeople : Int) (events : List GEvent) (sched : List Nat) : MState :=
  sched.foldl (gstep maxPeople events) (initM events)

/-- The two concurrent claim events of the C3 counterexample: distinct,
valid claimants whose settlements would both succeed. -/
def c3Events : List GEvent :=
  [{ user := 1, valid := true, outcome := SettleOutcome.ok },
   { user := 2, valid := true, outcome := SettleOutcome.ok }]

/-- The interleaving of the C3 counterexample: both claims pass their gate
checks while suspended at the recipient lookup, then both are admitted. -/
def c3Sched : List Nat := [0, 1, 0, 0, 1, 1]

/-- The serial-session invariant: the admitted count equals the size of the
admitted set, the set has no duplicates, the count never exceeds the cap,
and while the listener is attached there is still capacity. -/
def SessInv (maxPeople : Int) (s : SessState) : Prop :=
  s.claimed = (s.claimedUsers.length : Int) ∧
  s.claimedUsers.Nodup ∧
  s.claimed ≤ maxPeople ∧
  (s.attached = true → s.claimed < maxPeople)

/-- The two claim events of the C5 counterexample: a valid claim whose
settlement reverts on-chain, then a later distinct claimant. -/
def c5Events : List GEvent :=
  [{ user := 1, valid := true, outcome := SettleOutcome.reverted },
   { user := 2, valid := true, outcome := SettleOutcome.ok }]

/-! ## Handler operation traces and the idempotency guard

`isProcessed` (`src/index.js` lines 94-97) consults the durable
`platform_commands` table keyed by platform + message id; `logCmd` (lines
99-114) upserts the command row on that same key.  The `/send`-`/pay`
handler (lines 245-301) calls `isProcessed` as its first statement and
`logCmd` before its dispatch loop; the natural-language handler (lines
381-467) calls `isProcessed` (line 401) before any external effect and
routes parsed payments through `executeP2PCommand` (lines 471-559), which
calls `logCmd` before its dispatch loop; the `/giveaway` handler (lines
304-376) never calls `isProcessed` or `logCmd`.  The traces below list each
handler's operations in program order: lookups (`idemCheck`,
`profileLookup`, `edgeLookup`) are reads, the side-effecting operations are
the database writes, outbound messages, dispatch attempts, and listener
registration; per recipient the loop contributes a recipient lookup and a
dispatch attempt (recipients that fail to resolve contribute less, which
cannot move an effect before the check). -/

/-- Operations a command handler performs, in program order. -/
inductive BotOp
  | idemCheck
  | profileLookup
  | edgeLookup
  | logCmdUpsert
  | sendMessage
  | dispatchAttempt
  | registerListener
deriving DecidableEq, Repr

/-- Operations with an external side effect (writes, messages, dispatches,
listener registration), as opposed to pure reads. -/
def isSideEffectOp : BotOp → Bool
  | BotOp.logCmdUpsert => true
  | BotOp.sendMessage => true
  | BotOp.dispatchAttempt => true
  | BotOp.registerListener => true
  | _ => false

/-- Trace of `executeP2PCommand` (lines 471-559): sender lookup; if not
linked, an error message; else the command upsert, then per recipient a
lookup and a dispatch attempt, then the summary reply. -/
def executeP2PCommandOps (linked : Bool) (nRecipients : Nat) : List BotOp :=
  BotOp.profileLookup ::
    (if ¬ linked then [BotOp.sendMessage]
     else BotOp.logCmdUpsert ::
       ((List.replicate nRecipients
          [BotOp.profileLookup, BotOp.dispatchAttempt]).flatten ++ [BotOp.sendMessage]))

/-- Trace of the `/send`-`/pay` handler (lines 245-301): the idempotency
check is the first operation; an unparsable command gets a usage message;
otherwise the flow of `executeP2PCommand` (which lines 252-300 duplicate
inline). -/
def sendHandlerOps (processed parsed linked : Bool) (nRecipients : Nat) : List BotOp :=
  if processed then [BotOp.idemCheck]
  else if ¬ parsed then [BotOp.idemCheck, BotOp.sendMessage]
  else BotOp.idemCheck :: executeP2PCommandOps linked nRecipients

/-- Trace of the natural-language handler (lines 381-467): the idempotency
check precedes the schedule-parse lookup and all routing; an unparsed
message falls through to a chat reply. -/
def nlpHandlerOps (processed parsed linked : Bool) (nRecipients : Nat) : List BotOp :=
  if processed then [BotOp.idemCheck]
  else BotOp.idemCheck :: BotOp.edgeLookup ::
    (if parsed then executeP2PCommandOps linked nRecipients
     else [BotOp.sendMessage])

/-- Trace of the `/giveaway` command handler (lines 304-376): sender
lookup, the announcement message, and the claim-listener registration —
with no idempotency check and no command recording anywhere. -/
def giveawayHandlerOps (linked : Bool) : List BotOp :=
  BotOp.profileLookup ::
    (if ¬ linked then [BotOp.sendMessage]
     else [BotOp.sendMessage, BotOp.registerListener])

/-- A trace checks the idempotency store before any side effect: no
side-effecting operation occurs before the first `idemCheck`. -/
def checksBeforeEffects (ops : List BotOp) : Bool :=
  (ops.takeWhile (fun op => op != BotOp.idemCheck)).all (fun op => !(isSideEffectOp op))

/-- One delivery of a `/send` command against the durable command store
(the list of recorded message ids): the handler sees `isProcessed` answer
membership, and the `logCmd` upsert records the id when the flow reaches it
(a parsed command from a linked sender). -/
def sendDelivery (store : List Nat) (msgId : Nat) (parsed linked : Bool)
    (nRecipients : Nat) : List BotOp × List Nat :=
  if msgId ∈ store then (sendHandlerOps true parsed linked nRecipients, store)
  else (sendHandlerOps false parsed linked nRecipients,
        if parsed && linked then msgId :: store else store)

/-! ## Theorems -/

theorem rotateRpc_le_succ (rpcsLen idx : Nat) : rotateRpc rpcsLen idx ≤ idx + 1 := by
  unfold rotateRpc
  split <;> omega

theorem rotateRpc_ge (rpcsLen idx : Nat) : idx ≤ rotateRpc rpcsLen idx := by
  unfold rotateRpc
  split <;> omega

theorem rotateRpc_bound (rpcsLen idx : Nat) (h : idx ≤ rpcsLen - 1) :
    rotateRpc rpcsLen idx ≤ rpcsLen - 1 := by
  unfold rotateRpc
  split <;> omega

theorem cursorAfter_bound (rpcsLen n : Nat) : cursorAfter rpcsLen n ≤ rpcsLen - 1 := by
  induction n with
  | zero => simp [cursorAfter]
  | succ n ih => exact rotateRpc_bound rpcsLen _ ih

/-- C9: for every chain the endpoint cursor is monotonically non-decreasing
over the process lifetime and never exceeds `rpcs.length - 1`; `rotateRpc`
advances it by one position unless it is already at the last endpoint, in
which case it is a no-op, and the endpoint selection in `getClients` always
indexes within bounds. -/
theorem claim9_endpoint_cursor (rpcsLen : Nat) (h : 0 < rpcsLen) :
    (∀ n, cursorAfter rpcsLen n ≤ cursorAfter rpcsLen (n + 1)) ∧
    (∀ n, cursorAfter rpcsLen n ≤ rpcsLen - 1) ∧
    (∀ idx, idx < rpcsLen - 1 → rotateRpc rpcsLen idx = idx + 1) ∧
    (∀ idx, rpcsLen - 1 ≤ idx → rotateRpc rpcsLen idx = idx) ∧
    (∀ idx, getClientsRpcIdx rpcsLen idx < rpcsLen) := by
  refine ⟨fun n => rotateRpc_ge rpcsLen _, fun n => cursorAfter_bound rpcsLen n, ?_, ?_, ?_⟩
  · intro idx hidx
    unfold rotateRpc
    simp [hidx]
  · intro idx hidx
    unfold rotateRpc
    split <;> omega
  · intro idx
    unfold getClientsRpcIdx
    omega

/-- Witness for C9 at the concrete Base endpoint-list length 3. -/
theorem claim9_endpoint_cursor_witness :
    0 < 3 ∧ cursorAfter 3 5 ≤ 3 - 1 ∧ getClientsRpcIdx 3 7 < 3 := by
  have h := claim9_endpoint_cursor 3 (by decide)
  exact ⟨by decide, h.2.1 5, h.2.2.2.2 7⟩

/-- C1 (code bug): the claim says that with `amount ≤ balance` and
`amount ≤ allowance` the dispatch attempt returns a Success outcome.  The
code cannot: every control path of `attemptP2POnChain` returns `ok: false`,
because line 581 dereferences the never-assigned identifier `hash` (the
`wallet.sendTransaction` call is missing), so a fully funded attempt with
every network call succeeding still ends in the `catch` with reason
`hash is not defined`.  The second conjunct evaluates the failing input. -/
theorem attemptP2POnChain_not_ok (msgId : Nat) (tag : String) (amountUnits : Nat)
    (w : P2PAttemptWorld) (cursors : RpcCursors) :
    ((attemptP2POnChain msgId tag amountUnits w cursors).1).ok = false := by
  unfold attemptP2POnChain
  rcases w.reads with _ | ⟨n, balance, allowance⟩
  · rfl
  · dsimp only
    split
    · rfl
    · split
      · rfl
      · rcases w.gasEstimate with _ | g <;> rfl

theorem claim1_dispatch_never_succeeds :
    (∀ msgId tag amountUnits w cursors,
      ((attemptP2POnChain msgId tag amountUnits w cursors).1).ok = false) ∧
    (attemptP2POnChain 42 "alice" 5000000
        { reads := some (0, 10000000, 10000000), readErrReason := "",
          gasEstimate := some 100000, gasErrReason := "" }
        { baseIdx := 0, bscIdx := 0, tempoIdx := 0 }).1
      = { tag := "alice", ok := false, hash := none, fee := none,
          reason := some "hash is not defined" } :=
  ⟨fun msgId tag amountUnits w cursors =>
    attemptP2POnChain_not_ok msgId tag amountUnits w cursors, rfl⟩

/-- C8: when the preflight reads succeed and the balance is short, the
attempt returns the `Low balance` failure and performs only the three reads:
nothing is encoded, no gas is estimated, no transaction is sent; when only
the allowance is short it returns `Low allowance`, likewise without any
write preparation. -/
theorem claim8_insufficient_no_write (msgId : Nat) (tag : String) (amountUnits : Nat)
    (n bal allow : Nat) (w : P2PAttemptWorld) (cursors : RpcCursors)
    (hr : w.reads = some (n, bal, allow)) :
    (bal < amountUnits →
      (attemptP2POnChain msgId tag amountUnits w cursors).1.reason = some "Low balance" ∧
      (attemptP2POnChain msgId tag amountUnits w cursors).1.ok = false ∧
      (attemptP2POnChain msgId tag amountUnits w cursors).2.1.all
        (fun op => ¬ isChainWritePrep op)) ∧
    (amountUnits ≤ bal → allow < amountUnits →
      (attemptP2POnChain msgId tag amountUnits w cursors).1.reason = some "Low allowance" ∧
      (attemptP2POnChain msgId tag amountUnits w cursors).1.ok = false ∧
      (attemptP2POnChain msgId tag amountUnits w cursors).2.1.all
        (fun op => ¬ isChainWritePrep op)) := by
  constructor
  · intro hbal
    unfold attemptP2POnChain
    rw [hr]
    simp [hbal, preflightReadOps, isChainWritePrep]
  · intro hbal hallow
    unfold attemptP2POnChain
    rw [hr]
    simp [Nat.not_lt.mpr hbal, hallow, preflightReadOps, isChainWritePrep]

/-- Witness for C8: a sender with 3 units of balance cannot send 5 units. -/
theorem claim8_insufficient_no_write_witness :
    (attemptP2POnChain 7 "bob" 5
        { reads := some (1, 3, 100), readErrReason := "",
          gasEstimate := none, gasErrReason := "" }
        { baseIdx := 0, bscIdx := 0, tempoIdx := 0 }).1.reason = some "Low balance" ∧
    (attemptP2POnChain 7 "bob" 5
        { reads := some (1, 3, 100), readErrReason := "",
          gasEstimate := none, gasErrReason := "" }
        { baseIdx := 0, bscIdx := 0, tempoIdx := 0 }).2.1.all
        (fun op => ¬ isChainWritePrep op) := by
  have h := claim8_insufficient_no_write 7 "bob" 5 1 3 100
      { reads := some (1, 3, 100), readErrReason := "",
        gasEstimate := none, gasErrReason := "" }
      { baseIdx := 0, bscIdx := 0, tempoIdx := 0 } rfl
  have h2 := h.1 (by decide)
  exact ⟨h2.1, h2.2.2⟩

/-- C4 counterexample: a transport failure during the preflight reads of a
dispatch attempt leaves the endpoint cursor exactly where it was — the
claimed Endpoint Failover advancement (which `rotateRpc` would realize by
moving the Base cursor from 0 to 1) does not happen, and the trace shows a
single attempt with no automatic retry: the failure surfaces directly. -/
theorem claim4_counterexample :
    attemptP2POnChain 9 "bob" 1000
        { reads := none, readErrReason := "fetch failed",
          gasEstimate := none, gasErrReason := "" }
        { baseIdx := 0, bscIdx := 0, tempoIdx := 0 }
      = ({ tag := "bob", ok := false, hash := none, fee := none,
           reason := some "fetch failed" },
         [P2POp.readNonce, P2POp.readBalance, P2POp.readAllowance],
         { baseIdx := 0, bscIdx := 0, tempoIdx := 0 }) ∧
    rotateRpc 3 0 = 1 := by
  exact ⟨rfl, rfl⟩

/-- C4 amended: `rotateRpc` is defined but never called — no failure path
invokes it.  A transport failure in the preflight reads of
`attemptP2POnChain` surfaces immediately as a generic `ok: false` result
carrying the error text; the RPC cursor state is returned unchanged and the
trace contains the single triple of reads, so there is no endpoint rotation
and no automatic retry of the operation. -/
theorem claim4_no_rotation_no_retry (msgId : Nat) (tag : String) (amountUnits : Nat)
    (w : P2PAttemptWorld) (cursors : RpcCursors) (h : w.reads = none) :
    (attemptP2POnChain msgId tag amountUnits w cursors).2.2 = cursors ∧
    (attemptP2POnChain msgId tag amountUnits w cursors).1.ok = false ∧
    (attemptP2POnChain msgId tag amountUnits w cursors).1.reason = some w.readErrReason ∧
    (attemptP2POnChain msgId tag amountUnits w cursors).2.1 = preflightReadOps ∧
    (attemptP2POnChain msgId tag amountUnits w cursors).2.1.count P2POp.readNonce = 1 := by
  unfold attemptP2POnChain
  rw [h]
  exact ⟨rfl, rfl, rfl, rfl, rfl⟩

/-- Witness for the amended C4 at a concrete transport failure. -/
theorem claim4_no_rotation_no_retry_witness :
    (attemptP2POnChain 3 "carol" 250
        { reads := none, readErrReason := "HTTP request failed",
          gasEstimate := none, gasErrReason := "" }
        { baseIdx := 1, bscIdx := 0, tempoIdx := 0 }).2.2
      = { baseIdx := 1, bscIdx := 0, tempoIdx := 0 } ∧
    (attemptP2POnChain 3 "carol" 250
        { reads := none, readErrReason := "HTTP request failed",
          gasEstimate := none, gasErrReason := "" }
        { baseIdx := 1, bscIdx := 0, tempoIdx := 0 }).1.ok = false := by
  have h := claim4_no_rotation_no_retry 3 "carol" 250
      { reads := none, readErrReason := "HTTP request failed",
        gasEstimate := none, gasErrReason := "" }
      { baseIdx := 1, bscIdx := 0, tempoIdx := 0 } rfl
  exact ⟨h.1, h.2.1⟩

theorem checkChainFunds_chain (amount : ℚ) (w : ChainName → Nat → Option (Nat × Nat))
    (c : ChainName) : (checkChainFunds amount w c).chain = c := by
  unfold checkChainFunds
  rcases (List.range (checkRpcCount c)).findSome? (w c) with _ | ⟨bal, allow⟩ <;> rfl

theorem hasBalance_false_of_preds_false (fc : FundsCheck)
    (h1 : bothOkPred fc = false) (h2 : balanceOnlyPred fc = false) :
    fc.hasBalance = false := by
  unfold bothOkPred at h1
  unfold balanceOnlyPred at h2
  cases hb : fc.hasBalance <;> cases ha : fc.hasAllowance <;> simp_all

theorem selectAlternate_of_find?_some (amount : ℚ)
    (w : ChainName → Nat → Option (Nat × Nat)) (alternates : List ChainName)
    (c : ChainName)
    (hfb : alternates.find? (bothOkPred ∘ checkChainFunds amount w) = some c) :
    selectAlternate amount w alternates
      = some { chain := (checkChainFunds amount w c).chain,
               balance := (checkChainFunds amount w c).balance,
               symbol := (checkChainFunds amount w c).symbol,
               needsAllowance := false } := by
  unfold selectAlternate
  rw [List.find?_map, hfb]
  rfl

theorem selectAlternate_of_find?_none_some (amount : ℚ)
    (w : ChainName → Nat → Option (Nat × Nat)) (alternates : List ChainName)
    (c : ChainName)
    (hfb : alternates.find? (bothOkPred ∘ checkChainFunds amount w) = none)
    (hfo : alternates.find? (balanceOnlyPred ∘ checkChainFunds amount w) = some c) :
    selectAlternate amount w alternates
      = some { chain := (checkChainFunds amount w c).chain,
               balance := (checkChainFunds amount w c).balance,
               symbol := (checkChainFunds amount w c).symbol,
               needsAllowance := true } := by
  unfold selectAlternate
  rw [List.find?_map, List.find?_map, hfb, hfo]
  rfl

theorem selectAlternate_of_find?_none_none (amount : ℚ)
    (w : ChainName → Nat → Option (Nat × Nat)) (alternates : List ChainName)
    (hfb : alternates.find? (bothOkPred ∘ checkChainFunds amount w) = none)
    (hfo : alternates.find? (balanceOnlyPred ∘ checkChainFunds amount w) = none) :
    selectAlternate amount w alternates = none := by
  unfold selectAlternate
  rw [List.find?_map, List.find?_map, hfb, hfo]
  rfl

theorem selectAlternate_some_viable (amount : ℚ)
    (w : ChainName → Nat → Option (Nat × Nat)) (alternates : List ChainName)
    (r : AltChain) (h : selectAlternate amount w alternates = some r)
    (hna : r.needsAllowance = false) :
    bothOkPred (checkChainFunds amount w r.chain) = true ∧
    ∃ pre post, alternates = pre ++ r.chain :: post ∧
      ∀ c ∈ pre, bothOkPred (checkChainFunds amount w c) = false := by
  rcases hfb : alternates.find? (bothOkPred ∘ checkChainFunds amount w) with _ | c
  · rcases hfo : alternates.find? (balanceOnlyPred ∘ checkChainFunds amount w) with _ | c
    · rw [selectAlternate_of_find?_none_none amount w alternates hfb hfo] at h
      exact Option.noConfusion h
    · rw [selectAlternate_of_find?_none_some amount w alternates c hfb hfo] at h
      obtain rfl : r = _ := (Option.some.inj h).symm
      exact Bool.noConfusion hna
  · rw [selectAlternate_of_find?_some amount w alternates c hfb] at h
    obtain rfl : r = _ := (Option.some.inj h).symm
    obtain ⟨hp, pre, post, hsplit, hpre⟩ := List.find?_eq_some.mp hfb
    have hcc : (checkChainFunds amount w c).chain = c := checkChainFunds_chain amount w c
    dsimp only
    rw [hcc]
    refine ⟨hp, pre, post, hsplit, ?_⟩
    intro d hd
    have := hpre d hd
    simpa using this

theorem selectAlternate_some_needsAllowance (amount : ℚ)
    (w : ChainName → Nat → Option (Nat × Nat)) (alternates : List ChainName)
    (r : AltChain) (h : selectAlternate amount w alternates = some r)
    (hna : r.needsAllowance = true) :
    (∀ c ∈ alternates, bothOkPred (checkChainFunds amount w c) = false) ∧
    balanceOnlyPred (checkChainFunds amount w r.chain) = true ∧
    ∃ pre post, alternates = pre ++ r.chain :: post ∧
      ∀ c ∈ pre, (checkChainFunds amount w c).hasBalance = false := by
  rcases hfb : alternates.find? (bothOkPred ∘ checkChainFunds amount w) with _ | c
  · have hall : ∀ c ∈ alternates, bothOkPred (checkChainFunds amount w c) = false := by
      intro c hc
      have := List.find?_eq_none.mp hfb c hc
      simpa using this
    rcases hfo : alternates.find? (balanceOnlyPred ∘ checkChainFunds amount w) with _ | c
    · rw [selectAlternate_of_find?_none_none amount w alternates hfb hfo] at h
      exact Option.noConfusion h
    · rw [selectAlternate_of_find?_none_some amount w alternates c hfb hfo] at h
      obtain rfl : r = _ := (Option.some.inj h).symm
      obtain ⟨hp, pre, post, hsplit, hpre⟩ := List.find?_eq_some.mp hfo
      have hcc : (checkChainFunds amount w c).chain = c := checkChainFunds_chain amount w c
      dsimp only
      rw [hcc]
      refine ⟨hall, hp, pre, post, hsplit, ?_⟩
      intro d hd
      have hdmem : d ∈ alternates := by
        rw [hsplit]
        exact List.mem_append_left _ hd
      refine hasBalance_false_of_preds_false _ (hall d hdmem) ?_
      simpa using hpre d hd
  · rw [selectAlternate_of_find?_some amount w alternates c hfb] at h
    obtain rfl : r = _ := (Option.some.inj h).symm
    exact Bool.noConfusion hna

theorem selectAlternate_none_iff (amount : ℚ)
    (w : ChainName → Nat → Option (Nat × Nat)) (alternates : List ChainName) :
    selectAlternate amount w alternates = none ↔
      ∀ c ∈ alternates, (checkChainFunds amount w c).hasBalance = false := by
  constructor
  · intro h c hc
    rcases hfb : alternates.find? (bothOkPred ∘ checkChainFunds amount w) with _ | d
    · rcases hfo : alternates.find? (balanceOnlyPred ∘ checkChainFunds amount w) with _ | d
      · have h1 := List.find?_eq_none.mp hfb c hc
        have h2 := List.find?_eq_none.mp hfo c hc
        exact hasBalance_false_of_preds_false _ (by simpa using h1) (by simpa using h2)
      · rw [selectAlternate_of_find?_none_some amount w alternates d hfb hfo] at h
        exact Option.noConfusion h
    · rw [selectAlternate_of_find?_some amount w alternates d hfb] at h
      exact Option.noConfusion h
  · intro h
    have hfb : alternates.find? (bothOkPred ∘ checkChainFunds amount w) = none := by
      rw [List.find?_eq_none]
      intro c hc
      simp [Function.comp, bothOkPred, h c hc]
    have hfo : alternates.find? (balanceOnlyPred ∘ checkChainFunds amount w) = none := by
      rw [List.find?_eq_none]
      intro c hc
      simp [Function.comp, balanceOnlyPred, h c hc]
    exact selectAlternate_of_find?_none_none amount w alternates hfb hfo

theorem checkChainFunds_all_fail (amount : ℚ)
    (w : ChainName → Nat → Option (Nat × Nat)) (c : ChainName)
    (h : ∀ i, i < checkRpcCount c → w c i = none) :
    (checkChainFunds amount w c).hasBalance = false ∧
    (checkChainFunds amount w c).hasAllowance = false := by
  unfold checkChainFunds
  have hnone : (List.range (checkRpcCount c)).findSome? (w c) = none := by
    rw [List.findSome?_eq_none_iff]
    intro i hi
    exact h i (List.mem_range.mp hi)
  rw [hnone]
  exact ⟨rfl, rfl⟩

/-- C7: `findAlternateChain` probes every configured chain except the
excluded one and returns the first probed chain (registry iteration order)
with both `hasBalance` and `hasAllowance`; else the first chain with
`hasBalance` but not `hasAllowance`, tagged `needsAllowance`; else `none`.
A chain on which every endpoint probe fails counts as `hasBalance = false`
and never blocks the search. -/
theorem claim7_findAlternateChain_policy (amount : ℚ)
    (w : ChainName → Nat → Option (Nat × Nat)) (cur : ChainName) :
    (∀ r, findAlternateChain amount w cur = some r →
        r.chain ≠ cur ∧ r.chain ∈ chainOrder) ∧
    (∀ r, findAlternateChain amount w cur = some r → r.needsAllowance = false →
        (checkChainFunds amount w r.chain).hasBalance = true ∧
        (checkChainFunds amount w r.chain).hasAllowance = true ∧
        ∃ pre post, chainOrder.filter (fun c => c ≠ cur) = pre ++ r.chain :: post ∧
          ∀ c ∈ pre, ((checkChainFunds amount w c).hasBalance &&
                      (checkChainFunds amount w c).hasAllowance) = false) ∧
    (∀ r, findAlternateChain amount w cur = some r → r.needsAllowance = true →
        (checkChainFunds amount w r.chain).hasBalance = true ∧
        (checkChainFunds amount w r.chain).hasAllowance = false ∧
        (∀ c ∈ chainOrder.filter (fun c => c ≠ cur),
          ((checkChainFunds amount w c).hasBalance &&
           (checkChainFunds amount w c).hasAllowance) = false) ∧
        ∃ pre post, chainOrder.filter (fun c => c ≠ cur) = pre ++ r.chain :: post ∧
          ∀ c ∈ pre, (checkChainFunds amount w c).hasBalance = false) ∧
    (findAlternateChain amount w cur = none ↔
        ∀ c ∈ chainOrder.filter (fun c => c ≠ cur),
          (checkChainFunds amount w c).hasBalance = false) ∧
    (∀ c, (∀ i, i < checkRpcCount c → w c i = none) →
        (checkChainFunds amount w c).hasBalance = false) := by
  have hmem : ∀ r : AltChain, findAlternateChain amount w cur = some r →
      r.chain ∈ chainOrder.filter (fun c => c ≠ cur) := by
    intro r h
    cases hna : r.needsAllowance with
    | false =>
        obtain ⟨_, pre, post, hsplit, _⟩ :=
          selectAlternate_some_viable amount w _ r h hna
        rw [hsplit]
        exact List.mem_append_right _ (List.mem_cons_self _ _)
    | true =>
        obtain ⟨_, _, pre, post, hsplit, _⟩ :=
          selectAlternate_some_needsAllowance amount w _ r h hna
        rw [hsplit]
        exact List.mem_append_right _ (List.mem_cons_self _ _)
  refine ⟨?_, ?_, ?_, ?_, ?_⟩
  · intro r h
    have := hmem r h
    rw [List.mem_filter] at this
    exact ⟨by simpa using this.2, this.1⟩
  · intro r h hna
    obtain ⟨hboth, pre, post, hsplit, hpre⟩ :=
      selectAlternate_some_viable amount w _ r h hna
    rw [bothOkPred, Bool.and_eq_true] at hboth
    refine ⟨hboth.1, hboth.2, pre, post, hsplit, ?_⟩
    intro c hc
    have := hpre c hc
    rw [bothOkPred] at this
    exact this
  · intro r h hna
    obtain ⟨hall, honly, pre, post, hsplit, hpre⟩ :=
      selectAlternate_some_needsAllowance amount w _ r h hna
    rw [balanceOnlyPred, Bool.and_eq_true] at honly
    refine ⟨honly.1, by simpa using honly.2, ?_, pre, post, hsplit, hpre⟩
    intro c hc
    have := hall c hc
    rw [bothOkPred] at this
    exact this
  · exact selectAlternate_none_iff amount w _
  · intro c hc
    exact (checkChainFunds_all_fail amount w c hc).1

/-- Witness for C7: with Bsc unreachable and Tempo funded, rerouting away
from Base selects Tempo, a chain distinct from the excluded one, with a
positive balance check. -/
theorem claim7_findAlternateChain_policy_witness :
    (checkChainFunds 5 claim7WitnessWorld ChainName.tempo).hasBalance = true ∧
    ChainName.tempo ≠ ChainName.base := by
  have h := claim7_findAlternateChain_policy 5 claim7WitnessWorld ChainName.base
  have hfind : findAlternateChain 5 claim7WitnessWorld ChainName.base
      = some { chain := ChainName.tempo, balance := 10, symbol := "αUSD",
               needsAllowance := false } := by
    show selectAlternate 5 claim7WitnessWorld
        (List.filter (fun c => decide (c ≠ ChainName.base)) chainOrder) = _
    norm_num [selectAlternate, checkChainFunds, claim7WitnessWorld, chainOrder,
      checkRpcCount, checkDecimals, checkSymbol, bothOkPred, balanceOnlyPred,
      List.range_succ, List.filter, List.findSome?, List.find?]
  exact ⟨(h.2.1 _ hfind rfl).1, (h.1 _ hfind).1⟩

/-- C10: for every recipient at most one cross-chain reroute is attempted —
at most two dispatch attempts and at most one alternate-chain probe happen,
and when the first attempt fails with a balance or allowance shortfall, an
alternate chain is selected, and the single retry on it also fails, the
retry's failure is the recipient's recorded final outcome. -/
theorem claim10_single_reroute (msgId : Nat) (tag : String) (amountUnits : Nat)
    (amount : ℚ) (chain : ChainName) (w1 : P2PAttemptWorld)
    (cw : ChainName → Nat → Option (Nat × Nat)) (w2 : P2PAttemptWorld)
    (cursors : RpcCursors) :
    (processRecipient msgId tag amountUnits amount chain w1 cw w2 cursors).attemptCount ≤ 2 ∧
    (processRecipient msgId tag amountUnits amount chain w1 cw w2 cursors).probeCount ≤ 1 ∧
    (((attemptP2POnChain msgId tag amountUnits w1 cursors).1.reason = some "Low balance" ∨
      (attemptP2POnChain msgId tag amountUnits w1 cursors).1.reason = some "Low allowance") →
     ∀ alt, findAlternateChain amount cw chain = some alt → alt.needsAllowance = false →
      (attemptP2POnChain msgId tag amountUnits w2
        (attemptP2POnChain msgId tag amountUnits w1 cursors).2.2).1.ok = false →
      (processRecipient msgId tag amountUnits amount chain w1 cw w2 cursors).result
        = (attemptP2POnChain msgId tag amountUnits w2
            (attemptP2POnChain msgId tag amountUnits w1 cursors).2.2).1 ∧
      (processRecipient msgId tag amountUnits amount chain w1 cw w2 cursors).attemptCount = 2 ∧
      (processRecipient msgId tag amountUnits amount chain w1 cw w2 cursors).probeCount = 1) := by
  have hok := attemptP2POnChain_not_ok msgId tag amountUnits w1 cursors
  have heval : ∀ X : RecipientOutcome,
      processRecipient msgId tag amountUnits amount chain w1 cw w2 cursors = X →
      X.attemptCount ≤ 2 ∧ X.probeCount ≤ 1 := by
    intro X hX
    rw [← hX]
    simp only [processRecipient]
    rw [if_neg (by simp [hok])]
    split
    · rcases hfa : findAlternateChain amount cw chain with _ | alt
      · dsimp only
        exact ⟨by norm_num, by norm_num⟩
      · dsimp only
        split
        · exact ⟨by norm_num, by norm_num⟩
        · exact ⟨by norm_num, by norm_num⟩
    · exact ⟨by norm_num, by norm_num⟩
  refine ⟨(heval _ rfl).1, (heval _ rfl).2, ?_⟩
  intro hreason alt halt hna hfail
  have hres : processRecipient msgId tag amountUnits amount chain w1 cw w2 cursors
      = { result := (attemptP2POnChain msgId tag amountUnits w2
            (attemptP2POnChain msgId tag amountUnits w1 cursors).2.2).1,
          rerouted := (attemptP2POnChain msgId tag amountUnits w2
            (attemptP2POnChain msgId tag amountUnits w1 cursors).2.2).1.ok,
          attemptCount := 2, probeCount := 1 } := by
    simp only [processRecipient]
    rw [if_neg (by simp [hok]), if_pos hreason, halt]
    dsimp only
    rw [if_neg (by simp [hna])]
  rw [hres]
  exact ⟨rfl, rfl, rfl⟩

/-- Witness for C10: a Base attempt short on balance, rerouted to Tempo,
whose retry transport-fails; the recorded outcome is the retry's failure. -/
theorem claim10_single_reroute_witness :
    (processRecipient 11 "dave" 5000000 5 ChainName.base
        { reads := some (0, 3, 100), readErrReason := "",
          gasEstimate := none, gasErrReason := "" }
        claim7WitnessWorld
        { reads := none, readErrReason := "fetch failed",
          gasEstimate := none, gasErrReason := "" }
        { baseIdx := 0, bscIdx := 0, tempoIdx := 0 }).result.ok = false ∧
    (processRecipient 11 "dave" 5000000 5 ChainName.base
        { reads := some (0, 3, 100), readErrReason := "",
          gasEstimate := none, gasErrReason := "" }
        claim7WitnessWorld
        { reads := none, readErrReason := "fetch failed",
          gasEstimate := none, gasErrReason := "" }
        { baseIdx := 0, bscIdx := 0, tempoIdx := 0 }).attemptCount = 2 := by
  have hfind : findAlternateChain 5 claim7WitnessWorld ChainName.base
      = some { chain := ChainName.tempo, balance := 10, symbol := "αUSD",
               needsAllowance := false } := by
    show selectAlternate 5 claim7WitnessWorld
        (List.filter (fun c => decide (c ≠ ChainName.base)) chainOrder) = _
    norm_num [selectAlternate, checkChainFunds, claim7WitnessWorld, chainOrder,
      checkRpcCount, checkDecimals, checkSymbol, bothOkPred, balanceOnlyPred,
      List.range_succ, List.filter, List.findSome?, List.find?]
  have h := claim10_single_reroute 11 "dave" 5000000 5 ChainName.base
      { reads := some (0, 3, 100), readErrReason := "",
        gasEstimate := none, gasErrReason := "" }
      claim7WitnessWorld
      { reads := none, readErrReason := "fetch failed",
        gasEstimate := none, gasErrReason := "" }
      { baseIdx := 0, bscIdx := 0, tempoIdx := 0 }
  have h3 := h.2.2 (Or.inl (by decide)) _ hfind rfl (by decide)
  refine ⟨?_, h3.2.1⟩
  rw [h3.1]
  decide

theorem insertUser_of_not_mem (u : Nat) (l : List Nat) (h : u ∉ l) :
    insertUser u l = u :: l := by
  simp [insertUser, h]

theorem mem_insertUser_self (u : Nat) (l : List Nat) : u ∈ insertUser u l := by
  unfold insertUser
  split
  · assumption
  · exact List.mem_cons_self u l

theorem processClaim_not_attached (maxPeople : Int) (s : SessState) (e : GEvent)
    (hatt : s.attached = false) : processClaim maxPeople s e = s := by
  unfold processClaim
  rw [if_pos (by simp [hatt])]

theorem processClaim_reserve_eq (maxPeople : Int) (s : SessState) (e : GEvent)
    (hatt : s.attached = true) (hcap : ¬ maxPeople ≤ s.claimed)
    (hmem : e.user ∉ s.claimedUsers) (hval : e.valid = true) :
    processClaim maxPeople s e =
      settleStep maxPeople
        { s with claimedUsers := insertUser e.user s.claimedUsers,
                 claimed := s.claimed + 1 } e := by
  unfold processClaim
  rw [if_neg (not_not_intro hatt), if_neg hcap, if_neg hmem,
    if_neg (not_not_intro hval)]

theorem processClaim_cases (maxPeople : Int) (s : SessState) (e : GEvent) :
    processClaim maxPeople s e = s ∨
    (s.attached = true ∧ ¬ maxPeople ≤ s.claimed ∧ e.user ∉ s.claimedUsers ∧
      e.valid = true ∧
      processClaim maxPeople s e =
        settleStep maxPeople
          { s with claimedUsers := insertUser e.user s.claimedUsers,
                   claimed := s.claimed + 1 } e) := by
  by_cases h1 : s.attached = true
  · by_cases h2 : maxPeople ≤ s.claimed
    · exact Or.inl (by unfold processClaim; rw [if_neg (not_not_intro h1), if_pos h2])
    · by_cases h3 : e.user ∈ s.claimedUsers
      · exact Or.inl (by
          unfold processClaim
          rw [if_neg (not_not_intro h1), if_neg h2, if_pos h3])
      · by_cases h4 : e.valid = true
        · exact Or.inr ⟨h1, h2, h3, h4, processClaim_reserve_eq maxPeople s e h1 h2 h3 h4⟩
        · exact Or.inl (by
            unfold processClaim
            rw [if_neg (not_not_intro h1), if_neg h2, if_neg h3, if_pos h4])
  · exact Or.inl (processClaim_not_attached maxPeople s e (by
      cases h : s.attached
      · rfl
      · exact absurd h h1))

theorem processClaim_ok_eq (maxPeople : Int) (s : SessState) (e : GEvent)
    (hatt : s.attached = true) (hcap : ¬ maxPeople ≤ s.claimed)
    (hmem : e.user ∉ s.claimedUsers) (hval : e.valid = true)
    (hout : e.outcome = SettleOutcome.ok) :
    processClaim maxPeople s e =
      if maxPeople ≤ s.claimed + 1 then
        { claimed := s.claimed + 1, claimedUsers := e.user :: s.claimedUsers,
          attached := false, minted := (s.claimed + 1) :: s.minted,
          successes := e.user :: s.successes }
      else
        { claimed := s.claimed + 1, claimedUsers := e.user :: s.claimedUsers,
          attached := true, minted := (s.claimed + 1) :: s.minted,
          successes := e.user :: s.successes } := by
  rw [processClaim_reserve_eq maxPeople s e hatt hcap hmem hval]
  simp only [settleStep, hout, insertUser_of_not_mem e.user s.claimedUsers hmem]
  split
  · rfl
  · simp [hatt]

theorem processClaim_reverted_eq (maxPeople : Int) (s : SessState) (e : GEvent)
    (hatt : s.attached = true) (hcap : ¬ maxPeople ≤ s.claimed)
    (hmem : e.user ∉ s.claimedUsers) (hval : e.valid = true)
    (hout : e.outcome = SettleOutcome.reverted) :
    processClaim maxPeople s e =
      { claimed := s.claimed, claimedUsers := s.claimedUsers, attached := true,
        minted := (s.claimed + 1) :: s.minted, successes := s.successes } := by
  rw [processClaim_reserve_eq maxPeople s e hatt hcap hmem hval]
  simp only [settleStep, hout, insertUser_of_not_mem e.user s.claimedUsers hmem,
    List.erase_cons_head]
  simp [hatt]

theorem processClaim_exception_eq (maxPeople : Int) (s : SessState) (e : GEvent)
    (hatt : s.attached = true) (hcap : ¬ maxPeople ≤ s.claimed)
    (hmem : e.user ∉ s.claimedUsers) (hval : e.valid = true)
    (hout : e.outcome = SettleOutcome.exception) :
    processClaim maxPeople s e =
      { claimed := s.claimed, claimedUsers := s.claimedUsers, attached := true,
        minted := s.minted, successes := s.successes } := by
  rw [processClaim_reserve_eq maxPeople s e hatt hcap hmem hval]
  simp only [settleStep, hout, insertUser_of_not_mem e.user s.claimedUsers hmem,
    List.erase_cons_head]
  simp [hatt]

theorem processClaim_insufficient_eq (maxPeople : Int) (s : SessState) (e : GEvent)
    (hatt : s.attached = true) (hcap : ¬ maxPeople ≤ s.claimed)
    (hmem : e.user ∉ s.claimedUsers) (hval : e.valid = true)
    (hout : e.outcome = SettleOutcome.insufficient) :
    processClaim maxPeople s e =
      { claimed := s.claimed + 1, claimedUsers := e.user :: s.claimedUsers,
        attached := false, minted := s.minted, successes := s.successes } := by
  rw [processClaim_reserve_eq maxPeople s e hatt hcap hmem hval]
  simp [settleStep, hout, insertUser_of_not_mem e.user s.claimedUsers hmem]

theorem runSerial_aux (maxPeople : Int) :
    ∀ (events : List GEvent) (s : SessState),
    (∀ e ∈ events, e.valid = true ∧ e.outcome = SettleOutcome.ok) →
    (events.map GEvent.user).Nodup →
    (∀ e ∈ events, e.user ∉ s.claimedUsers) →
    SessInv maxPeople s →
    SessInv maxPeople (events.foldl (processClaim maxPeople) s) ∧
    (s.attached = false → events.foldl (processClaim maxPeople) s = s) ∧
    (s.attached = true →
      (events.foldl (processClaim maxPeople) s).claimed
        = min maxPeople (s.claimed + (events.length : Int))) := by
  intro events
  induction events with
  | nil =>
      intro s _ _ _ hinv
      refine ⟨hinv, fun _ => rfl, fun hatt => ?_⟩
      have := hinv.2.2.2 hatt
      simp only [List.length_nil, Nat.cast_zero, add_zero, List.foldl_nil]
      omega
  | cons e es ih =>
      intro s hvo hnodup hfresh hinv
      have hvo_tail : ∀ e' ∈ es, e'.valid = true ∧ e'.outcome = SettleOutcome.ok :=
        fun e' he' => hvo e' (List.mem_cons_of_mem e he')
      have hnodup2 : (∀ x ∈ es, ¬ x.user = e.user) ∧ (List.map GEvent.user es).Nodup := by
        simpa using hnodup
      obtain ⟨hlen, hnd, hle, hlt⟩ := hinv
      cases hatt : s.attached with
      | false =>
          have hstep := processClaim_not_attached maxPeople s e hatt
          have hrec := ih s hvo_tail hnodup2.2
            (fun e' he' => hfresh e' (List.mem_cons_of_mem e he')) ⟨hlen, hnd, hle, hlt⟩
          have hfix := hrec.2.1 hatt
          rw [List.foldl_cons, hstep, hfix]
          exact ⟨⟨hlen, hnd, hle, hlt⟩, fun _ => rfl, fun h => Bool.noConfusion h⟩
      | true =>
          have hval := (hvo e (List.mem_cons_self e es)).1
          have hout := (hvo e (List.mem_cons_self e es)).2
          have hfresh_e := hfresh e (List.mem_cons_self e es)
          have hlt2 : s.claimed < maxPeople := hlt hatt
          have hcap : ¬ maxPeople ≤ s.claimed := by omega
          have hstep := processClaim_ok_eq maxPeople s e hatt hcap hfresh_e hval hout
          have hfresh_tail : ∀ e' ∈ es, e'.user ∉ e.user :: s.claimedUsers := by
            intro e' he'
            rw [List.mem_cons]
            push_neg
            refine ⟨fun hu => hnodup2.1 e' he' hu, hfresh e' (List.mem_cons_of_mem e he')⟩
          by_cases hclose : maxPeople ≤ s.claimed + 1
          · rw [List.foldl_cons, hstep, if_pos hclose]
            have hinv2 : SessInv maxPeople
                { claimed := s.claimed + 1, claimedUsers := e.user :: s.claimedUsers,
                  attached := false, minted := (s.claimed + 1) :: s.minted,
                  successes := e.user :: s.successes } := by
              refine ⟨?_, ?_, ?_, ?_⟩
              · simp only [List.length_cons]
                push_cast
                omega
              · exact List.nodup_cons.mpr ⟨hfresh_e, hnd⟩
              · simp only
                omega
              · intro h
                exact Bool.noConfusion h
            have hrec := ih _ hvo_tail hnodup2.2 hfresh_tail hinv2
            have hfix := hrec.2.1 rfl
            rw [hfix]
            refine ⟨hinv2, fun h => Bool.noConfusion h, fun _ => ?_⟩
            simp only [List.length_cons]
            push_cast
            omega
          · rw [List.foldl_cons, hstep, if_neg hclose]
            have hinv2 : SessInv maxPeople
                { claimed := s.claimed + 1, claimedUsers := e.user :: s.claimedUsers,
                  attached := true, minted := (s.claimed + 1) :: s.minted,
                  successes := e.user :: s.successes } := by
              refine ⟨?_, ?_, ?_, ?_⟩
              · simp only [List.length_cons]
                push_cast
                omega
              · exact List.nodup_cons.mpr ⟨hfresh_e, hnd⟩
              · simp only
                omega
              · intro _
                simp only
                omega
            have hrec := ih _ hvo_tail hnodup2.2 hfresh_tail hinv2
            refine ⟨hrec.1, fun h => Bool.noConfusion h, fun _ => ?_⟩
            have := hrec.2.2 rfl
            rw [this]
            simp only [List.length_cons]
            push_cast
            omega

/-- C3 counterexample: two valid, distinct concurrent claimants against
`maxClaims = 1` — both pass the capacity and duplicate checks while
suspended at the recipient lookup, then both are provisionally admitted and
settled: the final admitted count is 2, not exactly `maxClaims = 1`. -/
theorem claim3_counterexample :
    (runSched 1 c3Events c3Sched).sess.claimed = 2 ∧
    (runSched 1 c3Events c3Sched).sess.claimedUsers.length = 2 ∧
    (1 : Int) < 2 := by
  refine ⟨by decide, by decide, by decide⟩

/-- C3 amended: each claim does add the identity and increment the count
before its settlement begins (the admit step), and when claim events are
processed serially — no other claim interleaving between a claim's
capacity/duplicate check and its provisional admission — a giveaway with
`N ≥ maxClaims > 0` valid, distinct, successful claims admits exactly
`maxClaims` claimants with no identity admitted twice.  Under interleaving
at the recipient-lookup suspension the cap can be overrun (see the
counterexample). -/
theorem claim3_serial_admission (maxPeople : Int) (events : List GEvent)
    (hmax : 0 < maxPeople)
    (hvo : ∀ e ∈ events, e.valid = true ∧ e.outcome = SettleOutcome.ok)
    (hnodup : (events.map GEvent.user).Nodup)
    (hN : maxPeople ≤ (events.length : Int)) :
    (runSerial maxPeople events).claimed = maxPeople ∧
    ((runSerial maxPeople events).claimedUsers.length : Int) = maxPeople ∧
    (runSerial maxPeople events).claimedUsers.Nodup ∧
    (∀ (m : MState) (i : Nat) (e : GEvent),
      m.phases.get? i = some Phase.reserve → events.get? i = some e →
      e.valid = true →
      (gstep maxPeople events m i).sess.claimed = m.sess.claimed + 1 ∧
      e.user ∈ (gstep maxPeople events m i).sess.claimedUsers ∧
      (gstep maxPeople events m i).phases = m.phases.set i Phase.settle) := by
  have hinv0 : SessInv maxPeople initSess := by
    refine ⟨by simp [initSess], by simp [initSess], by simp [initSess]; omega,
      fun _ => by simp [initSess]; omega⟩
  have haux := runSerial_aux maxPeople events initSess hvo hnodup
    (fun e _ => by simp [initSess]) hinv0
  have hclaimed : (runSerial maxPeople events).claimed = maxPeople := by
    have := haux.2.2 rfl
    unfold runSerial
    rw [this]
    simp [initSess]
    omega
  refine ⟨hclaimed, ?_, haux.1.2.1, ?_⟩
  · have := haux.1.1
    unfold runSerial at hclaimed ⊢
    omega
  · intro m i e hph hev hval
    unfold gstep
    rw [hph, hev]
    dsimp only
    rw [if_neg (not_not_intro hval)]
    exact ⟨rfl, mem_insertUser_self e.user _, rfl⟩

/-- Witness for the amended C3: three valid distinct successful claims with
cap 2 admit exactly 2 claimants. -/
theorem claim3_serial_admission_witness :
    (runSerial 2
      [{ user := 1, valid := true, outcome := SettleOutcome.ok },
       { user := 2, valid := true, outcome := SettleOutcome.ok },
       { user := 3, valid := true, outcome := SettleOutcome.ok }]).claimed = 2 ∧
    (runSerial 2
      [{ user := 1, valid := true, outcome := SettleOutcome.ok },
       { user := 2, valid := true, outcome := SettleOutcome.ok },
       { user := 3, valid := true, outcome := SettleOutcome.ok }]).claimedUsers.Nodup := by
  have h := claim3_serial_admission 2
    [{ user := 1, valid := true, outcome := SettleOutcome.ok },
     { user := 2, valid := true, outcome := SettleOutcome.ok },
     { user := 3, valid := true, outcome := SettleOutcome.ok }]
    (by decide) (by decide) (by decide) (by decide)
  exact ⟨h.1, h.2.2.1⟩

/-- C5 counterexample: the first claim is admitted (`claimed = 1`), encodes
its settlement with the tag for counter value 1, reverts, and is rolled
back (`claimed` returns to 0); the next claim is admitted, `claimed`
returns to 1, and its settlement encodes the **identical** tag string.
Two distinct dispatch attempts, equal dedup tags. -/
theorem claim5_counterexample :
    ((runSerial 2 c5Events).minted.map (giveawayTag 42)).length = 2 ∧
    ((runSerial 2 c5Events).minted.map (giveawayTag 42)).get? 0
      = ((runSerial 2 c5Events).minted.map (giveawayTag 42)).get? 1 ∧
    c5Events.length = 2 := by
  refine ⟨by decide, by decide, by decide⟩

theorem minted_aux (maxPeople : Int) :
    ∀ (events : List GEvent) (s : SessState),
    (∀ e ∈ events, e.outcome ≠ SettleOutcome.reverted ∧
      e.outcome ≠ SettleOutcome.exception) →
    (∀ c ∈ s.minted, c ≤ s.claimed) →
    s.minted.Pairwise (fun a b => b < a) →
    ((∀ c ∈ (events.foldl (processClaim maxPeople) s).minted,
        c ≤ (events.foldl (processClaim maxPeople) s).claimed) ∧
     (events.foldl (processClaim maxPeople) s).minted.Pairwise (fun a b => b < a)) := by
  intro events
  induction events with
  | nil =>
      intro s _ hbound hpair
      exact ⟨hbound, hpair⟩
  | cons e es ih =>
      intro s hnr hbound hpair
      have hnr_tail : ∀ e' ∈ es, e'.outcome ≠ SettleOutcome.reverted ∧
          e'.outcome ≠ SettleOutcome.exception :=
        fun e' he' => hnr e' (List.mem_cons_of_mem e he')
      rcases processClaim_cases maxPeople s e with hid | ⟨hatt, hcap, hmem, hval, heq⟩
      · rw [List.foldl_cons, hid]
        exact ih s hnr_tail hbound hpair
      · cases ho : e.outcome with
        | reverted => exact absurd ho (hnr e (List.mem_cons_self e es)).1
        | exception => exact absurd ho (hnr e (List.mem_cons_self e es)).2
        | insufficient =>
            have hstep := processClaim_insufficient_eq maxPeople s e hatt hcap hmem hval ho
            rw [List.foldl_cons, hstep]
            refine ih _ hnr_tail ?_ hpair
            intro c hc
            have := hbound c hc
            simp only at hc ⊢
            omega
        | ok =>
            have hstep := processClaim_ok_eq maxPeople s e hatt hcap hmem hval ho
            rw [List.foldl_cons, hstep]
            by_cases hclose : maxPeople ≤ s.claimed + 1
            · rw [if_pos hclose]
              refine ih _ hnr_tail ?_ ?_
              · intro c hc
                simp only [List.mem_cons] at hc
                rcases hc with rfl | hc
                · simp
                · have := hbound c hc
                  simp only
                  omega
              · refine List.Pairwise.cons ?_ hpair
                intro b hb
                have := hbound b hb
                omega
            · rw [if_neg hclose]
              refine ih _ hnr_tail ?_ ?_
              · intro c hc
                simp only [List.mem_cons] at hc
                rcases hc with rfl | hc
                · simp
                · have := hbound c hc
                  simp only
                  omega
              · refine List.Pairwise.cons ?_ hpair
                intro b hb
                have := hbound b hb
                omega

/-- C5 amended: the dedup tag is unique per claim slot, not per attempt —
in any serial giveaway run in which no settlement reverts or throws, the
counter values embedded in the minted tags are strictly decreasing in the
(most-recent-first) minted list, hence pairwise distinct, and the tag
strings, determined by the fixed message id and the counter, differ; but an
attempt made after a rollback reuses the rolled-back counter value and
produces an identical tag string (see the counterexample). -/
theorem claim5_tags_unique_per_slot (maxPeople : Int) (events : List GEvent)
    (hnr : ∀ e ∈ events, e.outcome ≠ SettleOutcome.reverted ∧
      e.outcome ≠ SettleOutcome.exception) :
    (runSerial maxPeople events).minted.Pairwise (fun a b => b < a) ∧
    (runSerial maxPeople events).minted.Nodup := by
  have h := minted_aux maxPeople events initSess hnr
    (by simp [initSess]) (by simp [initSess])
  refine ⟨h.2, h.2.imp ?_⟩
  intro a b hab
  exact (ne_of_gt hab)

/-- Witness for the amended C5: two successful claims mint distinct
counter values. -/
theorem claim5_tags_unique_per_slot_witness :
    (runSerial 3
      [{ user := 1, valid := true, outcome := SettleOutcome.ok },
       { user := 2, valid := true, outcome := SettleOutcome.ok }]).minted.Nodup := by
  exact (claim5_tags_unique_per_slot 3
    [{ user := 1, valid := true, outcome := SettleOutcome.ok },
     { user := 2, valid := true, outcome := SettleOutcome.ok }] (by decide)).2

/-- C6: a giveaway claim whose settlement fails — the receipt reports a
revert, or the settlement block throws — has its provisional admission
rolled back: the claimant is removed from the admitted set and the count is
decremented, restoring both exactly; the listener stays attached, and a
later distinct valid claimant is admitted into the freed slot and can
settle successfully. -/
theorem claim6_rollback_reclaim (maxPeople : Int) (s : SessState) (e e2 : GEvent)
    (hatt : s.attached = true) (hcap : s.claimed < maxPeople)
    (hmem : e.user ∉ s.claimedUsers) (hval : e.valid = true)
    (hfail : e.outcome = SettleOutcome.reverted ∨ e.outcome = SettleOutcome.exception)
    (hval2 : e2.valid = true) (hmem2 : e2.user ∉ s.claimedUsers)
    (hout2 : e2.outcome = SettleOutcome.ok) :
    (processClaim maxPeople s e).claimed = s.claimed ∧
    (processClaim maxPeople s e).claimedUsers = s.claimedUsers ∧
    (processClaim maxPeople s e).attached = true ∧
    (processClaim maxPeople (processClaim maxPeople s e) e2).claimed = s.claimed + 1 ∧
    e2.user ∈ (processClaim maxPeople (processClaim maxPeople s e) e2).claimedUsers ∧
    e2.user ∈ (processClaim maxPeople (processClaim maxPeople s e) e2).successes := by
  have hcap' : ¬ maxPeople ≤ s.claimed := by omega
  have hstep : processClaim maxPeople s e
      = { claimed := s.claimed, claimedUsers := s.claimedUsers, attached := true,
          minted := (s.claimed + 1) :: s.minted, successes := s.successes } ∨
      processClaim maxPeople s e
      = { claimed := s.claimed, claimedUsers := s.claimedUsers, attached := true,
          minted := s.minted, successes := s.successes } := by
    rcases hfail with ho | ho
    · exact Or.inl (processClaim_reverted_eq maxPeople s e hatt hcap' hmem hval ho)
    · exact Or.inr (processClaim_exception_eq maxPeople s e hatt hcap' hmem hval ho)
  rcases hstep with hstep | hstep
  · rw [hstep]
    refine ⟨rfl, rfl, rfl, ?_⟩
    rw [processClaim_ok_eq maxPeople
      { claimed := s.claimed, claimedUsers := s.claimedUsers, attached := true,
        minted := (s.claimed + 1) :: s.minted, successes := s.successes } e2
      rfl hcap' hmem2 hval2 hout2]
    by_cases hclose : maxPeople ≤ s.claimed + 1
    · rw [if_pos hclose]
      exact ⟨rfl, List.mem_cons_self _ _, List.mem_cons_self _ _⟩
    · rw [if_neg hclose]
      exact ⟨rfl, List.mem_cons_self _ _, List.mem_cons_self _ _⟩
  · rw [hstep]
    refine ⟨rfl, rfl, rfl, ?_⟩
    rw [processClaim_ok_eq maxPeople
      { claimed := s.claimed, claimedUsers := s.claimedUsers, attached := true,
        minted := s.minted, successes := s.successes } e2
      rfl hcap' hmem2 hval2 hout2]
    by_cases hclose : maxPeople ≤ s.claimed + 1
    · rw [if_pos hclose]
      exact ⟨rfl, List.mem_cons_self _ _, List.mem_cons_self _ _⟩
    · rw [if_neg hclose]
      exact ⟨rfl, List.mem_cons_self _ _, List.mem_cons_self _ _⟩

/-- Witness for C6 at a concrete reverted claim followed by a fresh
claimant. -/
theorem claim6_rollback_reclaim_witness :
    (processClaim 2 initSess
      { user := 5, valid := true, outcome := SettleOutcome.reverted }).claimed = 0 ∧
    (6 : Nat) ∈ (processClaim 2
      (processClaim 2 initSess
        { user := 5, valid := true, outcome := SettleOutcome.reverted })
      { user := 6, valid := true, outcome := SettleOutcome.ok }).claimedUsers := by
  have h := claim6_rollback_reclaim 2 initSess
    { user := 5, valid := true, outcome := SettleOutcome.reverted }
    { user := 6, valid := true, outcome := SettleOutcome.ok }
    rfl (by decide) (by decide) rfl (Or.inl rfl) rfl (by decide) rfl
  exact ⟨h.1, h.2.2.2.2.1⟩

/-- C2 counterexample: the `/giveaway` handler performs side effects with no
preceding idempotency check, and in the `/send` trace the command record is
written before the dispatch loop, not after a successful routing. -/
theorem claim2_counterexample :
    checksBeforeEffects (giveawayHandlerOps true) = false ∧
    (sendHandlerOps false true true 1).indexOf BotOp.logCmdUpsert <
      (sendHandlerOps false true true 1).indexOf BotOp.dispatchAttempt := by
  refine ⟨by decide, by decide⟩

/-- C2 amended: the `/send`-`/pay` and natural-language paths check the
idempotency store before any side effect (an already-processed message id
produces the bare check and nothing else), the command is recorded by the
`logCmd` upsert before dispatch rather than after success, and a `/send`
command redelivered after a delivery that reached the recording performs no
dispatch and no side effect at all; the `/giveaway` path has no idempotency
protection (see the counterexample). -/
theorem claim2_idempotency_guard :
    (∀ (processed parsed linked : Bool) (n : Nat),
      checksBeforeEffects (sendHandlerOps processed parsed linked n) = true) ∧
    (∀ (processed parsed linked : Bool) (n : Nat),
      checksBeforeEffects (nlpHandlerOps processed parsed linked n) = true) ∧
    (∀ (store : List Nat) (msgId : Nat) (parsed linked : Bool) (n n' : Nat),
      (sendDelivery ((sendDelivery store msgId true true n).2) msgId
        parsed linked n').1 = [BotOp.idemCheck]) := by
  refine ⟨?_, ?_, ?_⟩
  · intro processed parsed linked n
    cases processed <;> cases parsed <;>
      simp [sendHandlerOps, checksBeforeEffects, List.takeWhile]
  · intro processed parsed linked n
    cases processed <;> cases parsed <;>
      simp [nlpHandlerOps, checksBeforeEffects, List.takeWhile]
  · intro store msgId parsed linked n n'
    by_cases hmem : msgId ∈ store
    · simp [sendDelivery, hmem, sendHandlerOps]
    · simp [sendDelivery, hmem, sendHandlerOps]

end MoniBot
